import Mathlib

/-!
Verification of the `mcp_bridge` repository (streamable_http_adapter.py).

Shallow embedding conventions:
* Bytes are `Nat` values (the source manipulates Python `bytes`); byte
  strings are `List Nat`.
* The `async` methods of `MemoryReader` contain at most one
  `await asyncio.sleep(0.01)` suspension point.  A concurrent writer may
  append bytes during that suspension; the embedding passes those bytes
  as the explicit `arriving` argument, which is appended to the buffer
  exactly when the code reaches its sleep point (and is ignored
  otherwise, just as a write that never happens).
* Exceptions are modelled with `Except`: `readexactly` raising
  `asyncio.IncompleteReadError(partial, expected)` becomes
  `Except.error (partial, expected)`.
-/

namespace McpBridge

/-- State of the `MemoryReader` class (streamable_http_adapter.py, lines
29-96): `self._data` (the byte buffer), `self._position` (the read
cursor) and `self._eof` (the end-of-stream flag). -/
structure MemoryReader where
  data : List Nat
  position : Nat
  eof : Bool
deriving DecidableEq

/-- `MemoryReader.__init__`: empty buffer, cursor 0, EOF unset. -/
def MemoryReader.init : MemoryReader := ⟨[], 0, false⟩

/-- `MemoryReader.write(data)` (line 37-39): `self._data += data`.
Note the source has no guard on `self._eof`. -/
def MemoryReader.write (s : MemoryReader) (d : List Nat) : MemoryReader :=
  { s with data := s.data ++ d }

/-- `MemoryReader.set_eof` (line 41-43): `self._eof = True`. -/
def MemoryReader.set_eof (s : MemoryReader) : MemoryReader :=
  { s with eof := true }

/-- Functional rendering of the scan loop of `readline` (lines 70-74):
starting at absolute index `i`, scan the list `l` (the suffix of the
buffer from index `i`) for the byte `10` (`b'\n'`); return the absolute
index of the first occurrence. -/
def scanNL : List Nat → Nat → Option Nat
  | [], _ => none
  | b :: t, i => if b = 10 then some i else scanNL t (i + 1)

/-- Index of the first `b'\n'` at or after index `i` of `data`, as the
`while` loop of `readline` computes it. -/
def findNewline (data : List Nat) (i : Nat) : Option Nat :=
  scanNL (data.drop i) i

/-- The common slicing-and-cursor-update tail of `MemoryReader.read`
(lines 55-63): `n = none` models the Python sentinel `n == -1`
(read everything), `n = some k` models a nonnegative count. -/
def MemoryReader.readCore (s : MemoryReader) (n : Option Nat) :
    List Nat × MemoryReader :=
  match n with
  | none => (s.data.drop s.position, { s with position := s.data.length })
  | some k =>
      let e := min (s.position + k) s.data.length
      ((s.data.drop s.position).take (e - s.position), { s with position := e })

/-- `MemoryReader.read(n)` (lines 45-63).  If the cursor is at or past
the end of the buffer: return empty at EOF; otherwise sleep once
(`arriving` bytes may be appended by a concurrent writer during the
sleep), re-check, and return empty if still drained.  Otherwise slice
out up to `n` bytes and advance the cursor. -/
def MemoryReader.read (s : MemoryReader) (arriving : List Nat) (n : Option Nat) :
    List Nat × MemoryReader :=
  if s.data.length ≤ s.position then
    if s.eof then ([], s)
    else
      if (s.data ++ arriving).length ≤ s.position then
        ([], { s with data := s.data ++ arriving })
      else ({ s with data := s.data ++ arriving } : MemoryReader).readCore n
  else s.readCore n

/-- `MemoryReader.readline()` (lines 65-89).  Scan from the cursor for
`b'\n'`:
* found at `j`: return `self._data[start:j+1]` and set the cursor past
  the newline;
* not found, EOF set and unread bytes remain: return the tail and move
  the cursor to the end;
* not found and EOF set with nothing unread: return empty (the scan loop
  leaves the cursor at `max start length`);
* not found, EOF unset: restore the cursor to `start`, sleep once
  (during which `arriving` may be appended) and return empty. -/
def MemoryReader.readline (s : MemoryReader) (arriving : List Nat) :
    List Nat × MemoryReader :=
  match findNewline s.data s.position with
  | some j =>
      ((s.data.drop s.position).take (j + 1 - s.position), { s with position := j + 1 })
  | none =>
      if s.eof ∧ s.position < s.data.length then
        (s.data.drop s.position, { s with position := s.data.length })
      else if s.eof then
        ([], { s with position := max s.position s.data.length })
      else
        ([], { s with position := s.position, data := s.data ++ arriving })

/-- `MemoryReader.readexactly(n)` (lines 91-96): a single call to
`read(n)`; raise `IncompleteReadError(result, n)` when fewer than `n`
bytes came back. -/
def MemoryReader.readexactly (s : MemoryReader) (arriving : List Nat) (n : Nat) :
    Except (List Nat × Nat) (List Nat) × MemoryReader :=
  if (s.read arriving (some n)).1.length < n then
    (Except.error ((s.read arriving (some n)).1, n), (s.read arriving (some n)).2)
  else
    (Except.ok (s.read arriving (some n)).1, (s.read arriving (some n)).2)

/-- One operation on a `MemoryReader`, for stating whole-lifetime
invariants over arbitrary call sequences. -/
inductive Op where
  | write (d : List Nat)
  | set_eof
  | read (arriving : List Nat) (n : Option Nat)
  | readline (arriving : List Nat)
  | readexactly (arriving : List Nat) (n : Nat)
deriving DecidableEq

/-- Apply one operation to the stream state (outputs and raised
exceptions are discarded; the Python object's state after an operation
is what matters for the invariant). -/
def applyOp (s : MemoryReader) : Op → MemoryReader
  | Op.write d => s.write d
  | Op.set_eof => s.set_eof
  | Op.read a n => (s.read a n).2
  | Op.readline a => (s.readline a).2
  | Op.readexactly a n => (s.readexactly a n).2

/-- Run a sequence of operations from the freshly constructed stream. -/
def runOps (ops : List Op) : MemoryReader :=
  ops.foldl applyOp MemoryReader.init

/-- The data-model invariant: the cursor never exceeds the buffer
length. -/
def cursorInv (s : MemoryReader) : Prop := s.position ≤ s.data.length

/-! ## The HTTP handler (`mcp_handler`, lines 122-287)

JSON values (the output of `json.loads` and the input of `json.dumps`)
are modelled by the inductive `Json`; a Python `dict` built from a JSON
object literal is a key/value list. -/

inductive Json where
  | null
  | bool (b : Bool)
  | num (n : Int)
  | str (s : String)
  | arr (elems : List Json)
  | obj (entries : List (String × Json))

/-- `d.get(k)` on a dict `d`: the value at key `k`, or `None`
(`Option.none`) when absent. -/
def lookupKey : List (String × Json) → String → Option Json
  | [], _ => none
  | (k', v) :: t, k => if k' = k then some v else lookupKey t k

/-- Whether a JSON value is an object having key `k`. -/
def hasKey (j : Json) (k : String) : Bool :=
  match j with
  | Json.obj entries => entries.any (fun kv => decide (kv.1 = k))
  | _ => false

/-- Python `x == "s"` where `x` is an arbitrary decoded JSON value
(possibly `None`): true exactly when `x` is that string. -/
def isStrVal (j : Option Json) (s : String) : Bool :=
  match j with
  | some (Json.str t) => decide (t = s)
  | _ => false

/-- Python `str()` of a decoded JSON value, as interpolated into
f-strings such as `f"Method not found: ..."`.  Scalars are rendered
exactly; the rendering of containers is approximate (no claim inspects
this text). -/
def pyFormat : Option Json → String
  | none => "None"
  | some Json.null => "None"
  | some (Json.bool true) => "True"
  | some (Json.bool false) => "False"
  | some (Json.num n) => toString n
  | some (Json.str s) => s
  | some (Json.arr _) => "<list>"
  | some (Json.obj _) => "<dict>"

/-- The error-envelope dict literal used throughout `mcp_handler`:
`{"jsonrpc": "2.0", "id": msgId, "error": {"code": code, "message": msg}}`. -/
def errorEnvelope (msgId : Json) (code : Int) (msg : String) : Json :=
  Json.obj [("jsonrpc", Json.str "2.0"), ("id", msgId),
            ("error", Json.obj [("code", Json.num code), ("message", Json.str msg)])]

/-- The success-envelope dict literal:
`{"jsonrpc": "2.0", "id": msgId, "result": res}`. -/
def resultEnvelope (msgId : Json) (res : Json) : Json :=
  Json.obj [("jsonrpc", Json.str "2.0"), ("id", msgId), ("result", res)]

/-- One argument of an MCP prompt, as the fields `arg.name`,
`arg.description`, `arg.required` are read at lines 218-224. -/
structure PromptArgument where
  name : String
  description : Option String
  required : Bool

/-- One MCP prompt, as the fields `p.name`, `p.description`,
`p.arguments` are read at lines 214-227 (`p.arguments` may be `None`). -/
structure Prompt where
  name : String
  description : Option String
  arguments : Option (List PromptArgument)

/-- One message of a `get_prompt` result (fields `msg.role`,
`msg.content.type`, `msg.content.text`, lines 244-252). -/
structure PromptMessage where
  role : String
  contentType : String
  contentText : String

/-- Result object of `mcp_module.get_prompt` (field `messages`). -/
structure GetPromptResult where
  messages : List PromptMessage

/-- The external collaborators called from the dispatch block:
`mcp_module.list_prompts()` and `mcp_module.get_prompt(name, arguments)`.
An `Except.error e` outcome models the call raising an exception whose
`str()` is `e`. -/
structure DispatchEnv where
  list_prompts : Except String (List Prompt)
  get_prompt : Option Json → Option Json → Except String GetPromptResult

/-- `None`-or-string serialisation (`json.dumps` writes `null` for
Python `None`). -/
def optStrJson : Option String → Json
  | none => Json.null
  | some s => Json.str s

/-- The argument dict built at lines 219-224. -/
def promptArgumentJson (a : PromptArgument) : Json :=
  Json.obj [("name", Json.str a.name), ("description", optStrJson a.description),
            ("required", Json.bool a.required)]

/-- The prompt dict built at lines 215-227, with `(p.arguments or [])`. -/
def promptJson (p : Prompt) : Json :=
  Json.obj [("name", Json.str p.name), ("description", optStrJson p.description),
            ("arguments", Json.arr ((p.arguments.getD []).map promptArgumentJson))]

/-- The `initialize` result literal (lines 188-203). -/
def initResultJson : Json :=
  Json.obj [("protocolVersion", Json.str "2024-11-05"),
            ("capabilities", Json.obj [("prompts", Json.obj [("listChanged", Json.bool false)])]),
            ("serverInfo", Json.obj [("name", Json.str "markitdown_mcp_server"),
                                     ("version", Json.str "0.1.0")])]

/-- The message dict built at lines 245-253. -/
def promptMessageJson (m : PromptMessage) : Json :=
  Json.obj [("role", Json.str m.role),
            ("content", Json.obj [("type", Json.str m.contentType),
                                  ("text", Json.str m.contentText)])]

/-- The body of the `try:` block at lines 179-268, before the
`except Exception` clause.  `Except.ok e` is the single envelope the
block writes; `Except.error ex` is an exception raised inside the block
(collaborator failure, or the `AttributeError` from calling `.get` on a
non-dict).  The `Nat` component counts collaborator calls made. -/
def dispatchTry (env : DispatchEnv) (message : Json) : Except String Json × Nat :=
  match message with
  | Json.obj entries =>
      let method := lookupKey entries "method"
      let msgId := (lookupKey entries "id").getD Json.null
      let params := (lookupKey entries "params").getD (Json.obj [])
      if isStrVal method "initialize" then
        (Except.ok (resultEnvelope msgId initResultJson), 0)
      else if isStrVal method "prompts/list" then
        match env.list_prompts with
        | Except.ok ps =>
            (Except.ok (resultEnvelope msgId
              (Json.obj [("prompts", Json.arr (ps.map promptJson))])), 1)
        | Except.error e => (Except.error e, 1)
      else if isStrVal method "prompts/get" then
        match params with
        | Json.obj pentries =>
            let name := lookupKey pentries "name"
            let arguments := lookupKey pentries "arguments"
            match env.get_prompt name arguments with
            | Except.ok pr =>
                (Except.ok (resultEnvelope msgId
                  (Json.obj [("messages", Json.arr (pr.messages.map promptMessageJson))])), 1)
            | Except.error e => (Except.error e, 1)
        | _ => (Except.error "AttributeError", 0)
      else
        (Except.ok (errorEnvelope msgId (-32601) ("Method not found: " ++ pyFormat method)), 0)
  | _ => (Except.error "AttributeError", 0)

/-- The id recomputed in the `except` clause (line 274):
`message.get("id") if isinstance(message, dict) else None`. -/
def exceptId (message : Json) : Json :=
  match message with
  | Json.obj entries => (lookupKey entries "id").getD Json.null
  | _ => Json.null

/-- Observable outcome of one `mcp_handler` call: the JSON envelopes
written to the response (each `resp.write` of a serialised dict), the
number of collaborator calls, whether control reached the dispatch
block, the uncaught exception if one escaped the coroutine, and whether
`resp.write_eof` was reached. -/
structure HandlerResult where
  writes : List Json
  collaboratorCalls : Nat
  dispatchInvoked : Bool
  escaped : Option String
  responseClosed : Bool

/-- Lines 178-287: run the dispatch block and catch any exception it
raises, turning it into the `-32603` envelope of lines 270-280; either
way `resp.write_eof()` is then reached. -/
def dispatch (env : DispatchEnv) (message : Json) : HandlerResult :=
  match dispatchTry env message with
  | (Except.ok e, c) => ⟨[e], c, true, none, true⟩
  | (Except.error ex, c) =>
      ⟨[errorEnvelope (exceptId message) (-32603) ("Internal error: " ++ ex)],
       c, true, none, true⟩

/-- Whether a byte is a UTF-8 continuation byte (`0x80..0xBF`). -/
def contOk (b : Nat) : Bool := 0x80 ≤ b && b < 0xC0

/-- Strict UTF-8 decoding, as `bytes.decode('utf-8')` performs it:
`none` models `UnicodeDecodeError` (overlong forms, surrogates,
out-of-range and truncated sequences all rejected); `some cps` is the
decoded text as a list of code points. -/
def utf8Decode : List Nat → Option (List Nat)
  | [] => some []
  | b0 :: t0 =>
      if b0 < 0x80 then
        (utf8Decode t0).map (fun r => b0 :: r)
      else if b0 < 0xC2 then none
      else if b0 < 0xE0 then
        match t0 with
        | b1 :: t1 =>
            if contOk b1 then
              (utf8Decode t1).map (fun r => ((b0 - 0xC0) * 0x40 + (b1 - 0x80)) :: r)
            else none
        | [] => none
      else if b0 < 0xF0 then
        match t0 with
        | b1 :: b2 :: t2 =>
            if (if b0 = 0xE0 then 0xA0 ≤ b1 && b1 < 0xC0
                else if b0 = 0xED then 0x80 ≤ b1 && b1 < 0xA0
                else contOk b1) && contOk b2 then
              (utf8Decode t2).map
                (fun r => ((b0 - 0xE0) * 0x1000 + (b1 - 0x80) * 0x40 + (b2 - 0x80)) :: r)
            else none
        | _ => none
      else if b0 < 0xF5 then
        match t0 with
        | b1 :: b2 :: b3 :: t3 =>
            if (if b0 = 0xF0 then 0x90 ≤ b1 && b1 < 0xC0
                else if b0 = 0xF4 then 0x80 ≤ b1 && b1 < 0x90
                else contOk b1) && contOk b2 && contOk b3 then
              (utf8Decode t3).map
                (fun r => ((b0 - 0xF0) * 0x40000 + (b1 - 0x80) * 0x1000
                           + (b2 - 0x80) * 0x40 + (b3 - 0x80)) :: r)
            else none
        | _ => none
      else none

/-- Lines 163-176 once decoding succeeded: `json.loads` (modelled by the
`parse` argument, an external library call; `Except.error e` is a
`json.JSONDecodeError` with text `e`) and the parse-error envelope. -/
def handleDecoded (parse : List Nat → Except String Json) (env : DispatchEnv)
    (text : List Nat) : HandlerResult :=
  match parse text with
  | Except.error e =>
      ⟨[errorEnvelope Json.null (-32700) ("Parse error: " ++ e)], 0, false, none, true⟩
  | Except.ok message => dispatch env message

/-- `mcp_handler(request)` (lines 122-287), as a function of the request
body bytes.  An empty body yields the `-32600` envelope (lines 141-150).
A non-empty body is decoded by `request_data.decode('utf-8')` at line
165; a decode failure raises `UnicodeDecodeError`, which the surrounding
`except json.JSONDecodeError` clause does not catch, so the exception
escapes the handler with nothing written and the response never closed.
Otherwise `json.loads` and the dispatch block run. -/
def mcp_handler (parse : List Nat → Except String Json) (env : DispatchEnv)
    (body : List Nat) : HandlerResult :=
  if body = [] then
    ⟨[errorEnvelope Json.null (-32600) "Empty request body"], 0, false, none, true⟩
  else
    match utf8Decode body with
    | none => ⟨[], 0, false, some "UnicodeDecodeError", false⟩
    | some text => handleDecoded parse env text

/-! ## Correctness of the newline scan -/

theorem scanNL_some_spec (l : List Nat) (i j : Nat) (h : scanNL l i = some j) :
    i ≤ j ∧ j - i < l.length ∧ l[j - i]? = some 10 ∧
      ∀ m, m < j - i → l[m]? ≠ some 10 := by
  induction l generalizing i with
  | nil => simp [scanNL] at h
  | cons b t ih =>
    rw [scanNL] at h
    by_cases hb : b = 10
    · rw [if_pos hb] at h
      injection h with h
      subst h
      refine ⟨Nat.le_refl i, by simp, by simp [hb], ?_⟩
      intro m hm
      omega
    · rw [if_neg hb] at h
      obtain ⟨h1, h2, h3, h4⟩ := ih (i + 1) h
      refine ⟨by omega, by simp only [List.length_cons]; omega, ?_, ?_⟩
      · have hji : j - i = (j - (i + 1)) + 1 := by omega
        rw [hji, List.getElem?_cons_succ]
        exact h3
      · intro m hm
        match m with
        | 0 =>
          rw [List.getElem?_cons_zero]
          exact fun hc => hb (Option.some.inj hc)
        | m' + 1 =>
          rw [List.getElem?_cons_succ]
          exact h4 m' (by omega)

theorem scanNL_none_spec (l : List Nat) (i : Nat) (h : scanNL l i = none) :
    ∀ m, m < l.length → l[m]? ≠ some 10 := by
  induction l generalizing i with
  | nil => intro m hm; simp at hm
  | cons b t ih =>
    rw [scanNL] at h
    by_cases hb : b = 10
    · rw [if_pos hb] at h; exact absurd h (by simp)
    · rw [if_neg hb] at h
      intro m hm
      match m with
      | 0 =>
        rw [List.getElem?_cons_zero]
        exact fun hc => hb (Option.some.inj hc)
      | m' + 1 =>
        rw [List.getElem?_cons_succ]
        exact ih (i + 1) h m' (by simpa using hm)

theorem findNewline_some_spec (d : List Nat) (i j : Nat)
    (h : findNewline d i = some j) :
    i ≤ j ∧ j < d.length ∧ d[j]? = some 10 ∧
      ∀ k, i ≤ k → k < j → d[k]? ≠ some 10 := by
  obtain ⟨h1, h2, h3, h4⟩ := scanNL_some_spec _ _ _ h
  rw [List.length_drop] at h2
  rw [List.getElem?_drop] at h3
  have hj : i + (j - i) = j := by omega
  rw [hj] at h3
  refine ⟨h1, by omega, h3, ?_⟩
  intro k hk1 hk2
  have h5 := h4 (k - i) (by omega)
  rw [List.getElem?_drop] at h5
  have hk : i + (k - i) = k := by omega
  rwa [hk] at h5

theorem findNewline_none_spec (d : List Nat) (i : Nat)
    (h : findNewline d i = none) :
    ∀ k, i ≤ k → k < d.length → d[k]? ≠ some 10 := by
  intro k hk1 hk2
  have h5 := scanNL_none_spec _ _ h (k - i) (by rw [List.length_drop]; omega)
  rw [List.getElem?_drop] at h5
  have hk : i + (k - i) = k := by omega
  rwa [hk] at h5

theorem findNewline_eq_none (d : List Nat) (i : Nat)
    (h : ∀ k, i ≤ k → k < d.length → d[k]? ≠ some 10) :
    findNewline d i = none := by
  cases hf : findNewline d i with
  | none => rfl
  | some j =>
    obtain ⟨h1, h2, h3, _⟩ := findNewline_some_spec d i j hf
    exact absurd h3 (h j h1 h2)

theorem findNewline_exists (d : List Nat) (i : Nat)
    (h : ∃ k, i ≤ k ∧ k < d.length ∧ d[k]? = some 10) :
    ∃ j, findNewline d i = some j := by
  cases hf : findNewline d i with
  | some j => exact ⟨j, rfl⟩
  | none =>
    obtain ⟨k, hk1, hk2, hk3⟩ := h
    exact absurd hk3 (findNewline_none_spec d i hf k hk1 hk2)

/-! ## Behaviour lemmas for `readline` -/

theorem readline_found (s : MemoryReader) (arriving : List Nat) (j : Nat)
    (h : findNewline s.data s.position = some j) :
    s.readline arriving =
      ((s.data.drop s.position).take (j + 1 - s.position),
       { s with position := j + 1 }) := by
  unfold MemoryReader.readline
  rw [h]

theorem readline_pending (s : MemoryReader) (arriving : List Nat)
    (heof : s.eof = false) (hnl : findNewline s.data s.position = none) :
    s.readline arriving = ([], ⟨s.data ++ arriving, s.position, false⟩) := by
  unfold MemoryReader.readline
  rw [hnl]
  simp [heof]

theorem readline_eof_tail (s : MemoryReader) (arriving : List Nat)
    (heof : s.eof = true) (hnl : findNewline s.data s.position = none)
    (hlt : s.position < s.data.length) :
    s.readline arriving =
      (s.data.drop s.position, { s with position := s.data.length }) := by
  unfold MemoryReader.readline
  rw [hnl]
  simp [heof, hlt]

theorem readline_eof_drained (s : MemoryReader) (arriving : List Nat)
    (heof : s.eof = true) (hnl : findNewline s.data s.position = none)
    (hge : s.data.length ≤ s.position) :
    s.readline arriving = ([], { s with position := max s.position s.data.length }) := by
  unfold MemoryReader.readline
  rw [hnl]
  simp [heof, Nat.not_lt.mpr hge]

/-! ## The cursor invariant -/

theorem readCore_inv (s : MemoryReader) (n : Option Nat) :
    cursorInv (s.readCore n).2 := by
  cases n with
  | none => simp [MemoryReader.readCore, cursorInv]
  | some k =>
    simp only [MemoryReader.readCore, cursorInv]
    omega

theorem readCore_data (s : MemoryReader) (n : Option Nat) :
    (s.readCore n).2.data = s.data := by
  cases n <;> rfl

theorem read_inv (s : MemoryReader) (arriving : List Nat) (n : Option Nat)
    (h : cursorInv s) : cursorInv (s.read arriving n).2 := by
  unfold MemoryReader.read
  split
  · split
    · exact h
    · split
      · exact h.trans (by simp)
      · exact readCore_inv _ n
  · exact readCore_inv s n

theorem readline_inv (s : MemoryReader) (arriving : List Nat)
    (h : cursorInv s) : cursorInv (s.readline arriving).2 := by
  cases hf : findNewline s.data s.position with
  | some j =>
    obtain ⟨_, h2, _, _⟩ := findNewline_some_spec _ _ _ hf
    rw [readline_found s arriving j hf]
    simpa [cursorInv] using h2
  | none =>
    cases heof : s.eof with
    | false =>
      rw [readline_pending s arriving heof hf]
      simp only [cursorInv, List.length_append]
      exact h.trans (Nat.le_add_right _ _)
    | true =>
      by_cases hlt : s.position < s.data.length
      · rw [readline_eof_tail s arriving heof hf hlt]
        exact Nat.le_refl _
      · rw [readline_eof_drained s arriving heof hf (Nat.not_lt.mp hlt)]
        simp only [cursorInv]
        exact Nat.max_le.mpr ⟨h, Nat.le_refl _⟩

theorem readexactly_inv (s : MemoryReader) (arriving : List Nat) (n : Nat)
    (h : cursorInv s) : cursorInv (s.readexactly arriving n).2 := by
  unfold MemoryReader.readexactly
  split
  · exact read_inv s arriving (some n) h
  · exact read_inv s arriving (some n) h

theorem applyOp_inv (s : MemoryReader) (op : Op) (h : cursorInv s) :
    cursorInv (applyOp s op) := by
  cases op with
  | write d =>
    simp only [applyOp, MemoryReader.write, cursorInv, List.length_append]
    exact h.trans (Nat.le_add_right _ _)
  | set_eof => exact h
  | read a n => exact read_inv s a n h
  | readline a => exact readline_inv s a h
  | readexactly a n => exact readexactly_inv s a n h

theorem foldl_inv (ops : List Op) (s : MemoryReader) (h : cursorInv s) :
    cursorInv (ops.foldl applyOp s) := by
  induction ops generalizing s with
  | nil => exact h
  | cons op rest ih => exact ih (applyOp s op) (applyOp_inv s op h)

/-! ## Behaviour lemmas for `read` and `readexactly` -/

theorem read_some_length_le (s : MemoryReader) (arriving : List Nat) (n : Nat) :
    ((s.read arriving (some n)).1).length ≤ n := by
  unfold MemoryReader.read
  split
  · split
    · simp
    · split
      · simp
      · simp only [MemoryReader.readCore, List.length_take, List.length_drop]
        omega
  · simp only [MemoryReader.readCore, List.length_take, List.length_drop]
    omega

/-- C3 (amended): `readexactly(n)` performs a single `read(n)` call, not
an accumulation loop.  It returns bytes exactly when that single read
yields `n` of them (so it never silently returns fewer than `n` bytes),
and raises a short-read error carrying the partial result and `n`
exactly when the single read yields fewer — which can happen even while
end-of-stream is unset and more bytes are forthcoming. -/
theorem readexactly_single_read (s : MemoryReader) (arriving : List Nat) (n : Nat) :
    (∀ r s₂, s.readexactly arriving n = (Except.ok r, s₂) →
        r = (s.read arriving (some n)).1 ∧ r.length = n ∧
        s₂ = (s.read arriving (some n)).2) ∧
    (∀ pr m s₂, s.readexactly arriving n = (Except.error (pr, m), s₂) →
        pr = (s.read arriving (some n)).1 ∧ m = n ∧ pr.length < n ∧
        s₂ = (s.read arriving (some n)).2) := by
  have hle := read_some_length_le s arriving n
  constructor
  · intro r s₂ hh
    unfold MemoryReader.readexactly at hh
    split at hh
    · exact absurd hh (by simp)
    · next hge =>
      simp only [Prod.mk.injEq, Except.ok.injEq] at hh
      obtain ⟨h1, h2⟩ := hh
      subst h1; subst h2
      exact ⟨rfl, by omega, rfl⟩
  · intro pr m s₂ hh
    unfold MemoryReader.readexactly at hh
    split at hh
    · next hlt =>
      simp only [Prod.mk.injEq, Except.error.injEq] at hh
      obtain ⟨⟨h1, h2⟩, h3⟩ := hh
      subst h1; subst h2; subst h3
      exact ⟨rfl, rfl, hlt, rfl⟩
    · exact absurd hh (by simp)

/-! ## Shape lemmas for the dispatch block -/

/-- Every envelope the `try:` block writes on its success path carries
exactly one of the members `result` / `error`. -/
theorem dispatchTry_ok_shape (env : DispatchEnv) (message : Json) (e : Json) (c : Nat)
    (h : dispatchTry env message = (Except.ok e, c)) :
    (hasKey e "result" = true ∧ hasKey e "error" = false) ∨
    (hasKey e "result" = false ∧ hasKey e "error" = true) := by
  cases message with
  | obj entries =>
    simp only [dispatchTry] at h
    repeat' split at h
    all_goals simp only [Prod.mk.injEq, Except.ok.injEq] at h
    all_goals first
      | exact Except.noConfusion h.1
      | (obtain ⟨he, hc⟩ := h
         subst he
         first
           | exact Or.inl ⟨rfl, rfl⟩
           | exact Or.inr ⟨rfl, rfl⟩)
  | null => exact absurd h (by simp [dispatchTry])
  | bool b => exact absurd h (by simp [dispatchTry])
  | num n => exact absurd h (by simp [dispatchTry])
  | str t => exact absurd h (by simp [dispatchTry])
  | arr xs => exact absurd h (by simp [dispatchTry])

/-- Reduction of `mcp_handler` to the dispatch block once the body is
non-empty, decodes and parses. -/
theorem mcp_handler_dispatches (parse : List Nat → Except String Json)
    (env : DispatchEnv) (body text : List Nat) (message : Json)
    (hne : body ≠ []) (hdec : utf8Decode body = some text)
    (hparse : parse text = Except.ok message) :
    mcp_handler parse env body = dispatch env message := by
  unfold mcp_handler
  rw [if_neg hne, hdec]
  show handleDecoded parse env text = dispatch env message
  unfold handleDecoded
  rw [hparse]

/-! ## Claims -/

/-- C1: on the failing input `b"\xff"` (non-empty, invalid UTF-8) the
handler writes no envelope at all — in particular no `-32700` one — and
the `UnicodeDecodeError` raised by `request_data.decode('utf-8')`
escapes the coroutine uncaught (it is not a `json.JSONDecodeError`, the
only exception class the surrounding clause catches), leaving the
response unclosed; the dispatch logic is indeed never invoked. -/
theorem invalid_utf8_body_escapes_handler (parse : List Nat → Except String Json)
    (env : DispatchEnv) :
    mcp_handler parse env [255] =
      ⟨[], 0, false, some "UnicodeDecodeError", false⟩ := rfl

/-- C2: for every posted body that decodes and parses to a single
message, the handler writes exactly one top-level JSON object, and that
object carries a `result` member or an `error` member — never both,
never neither. -/
theorem single_message_single_envelope (parse : List Nat → Except String Json)
    (env : DispatchEnv) (body text : List Nat) (message : Json)
    (hne : body ≠ [])
    (hdec : utf8Decode body = some text)
    (hparse : parse text = Except.ok message) :
    ∃ e, (mcp_handler parse env body).writes = [e] ∧
      ((hasKey e "result" = true ∧ hasKey e "error" = false) ∨
       (hasKey e "result" = false ∧ hasKey e "error" = true)) := by
  rw [mcp_handler_dispatches parse env body text message hne hdec hparse]
  unfold dispatch
  cases hdt : dispatchTry env message with
  | mk fst c =>
    cases fst with
    | ok e =>
      exact ⟨e, rfl, dispatchTry_ok_shape env message e c hdt⟩
    | error ex =>
      exact ⟨errorEnvelope (exceptId message) (-32603) ("Internal error: " ++ ex),
        rfl, Or.inr ⟨rfl, rfl⟩⟩

/-- C2 witness: the concrete body `b"{"` with a parse returning the
empty object dispatches to the unknown-method arm and yields one
envelope carrying exactly an `error` member. -/
theorem single_message_single_envelope_witness :
    ∃ e, (mcp_handler (fun _ => Except.ok (Json.obj []))
        ⟨Except.ok [], fun _ _ => Except.ok ⟨[]⟩⟩ [123]).writes = [e] ∧
      ((hasKey e "result" = true ∧ hasKey e "error" = false) ∨
       (hasKey e "result" = false ∧ hasKey e "error" = true)) :=
  single_message_single_envelope (fun _ => Except.ok (Json.obj []))
    ⟨Except.ok [], fun _ _ => Except.ok ⟨[]⟩⟩ [123] [123] (Json.obj [])
    (by decide) rfl rfl

/-- C3 counterexample: with end-of-stream unset and bytes still
forthcoming (two bytes arrive during the read's suspension, more could
follow in later writes), `readexactly 3` raises the short-read error
`IncompleteReadError([97, 98], 3)` instead of accumulating further —
refuting both "repeatedly invokes read, accumulating until n bytes are
collected" and "never raises a short-read error while end-of-stream is
unset and more bytes are forthcoming". -/
theorem readexactly_raises_before_eof :
    (⟨[], 0, false⟩ : MemoryReader).eof = false ∧
    MemoryReader.readexactly ⟨[], 0, false⟩ [97, 98] 3 =
      (Except.error ([97, 98], 3), ⟨[97, 98], 2, false⟩) := ⟨rfl, rfl⟩

/-- C3 witness: at a concrete one-byte stream, the single read returns
the byte and `readexactly 1` succeeds with exactly 1 byte. -/
theorem readexactly_single_read_witness :
    ([97] : List Nat) = (MemoryReader.read ⟨[97], 0, true⟩ [] (some 1)).1 ∧
    ([97] : List Nat).length = 1 ∧
    (⟨[97], 1, true⟩ : MemoryReader) = (MemoryReader.read ⟨[97], 0, true⟩ [] (some 1)).2 :=
  (readexactly_single_read ⟨[97], 0, true⟩ [] 1).1 [97] ⟨[97], 1, true⟩ rfl

/-- C4 counterexample: with no terminator buffered and end-of-stream
unset, `readline` returns the empty result — the very value that
signals end-of-data (a drained EOF stream returns the same `b""`) —
even though a complete line `b"ab\n"` is available right after its one
suspension; it does not retry. -/
theorem readline_empty_while_pending :
    MemoryReader.readline ⟨[97], 0, false⟩ [98, 10] =
      ([], ⟨[97, 98, 10], 0, false⟩) ∧
    (MemoryReader.readline ⟨[], 0, true⟩ []).1 = [] := ⟨rfl, rfl⟩

/-- C4 (amended): when no line terminator is present in the unread
buffer and end-of-stream is unset, `readline` restores the cursor,
suspends exactly once, and then returns an empty result without
retrying — a value indistinguishable from the EOF signal; the caller
must call again to obtain the line. -/
theorem readline_pending_suspends_once (s : MemoryReader) (arriving : List Nat)
    (heof : s.eof = false)
    (hno : ∀ k, s.position ≤ k → k < s.data.length → s.data[k]? ≠ some 10) :
    s.readline arriving = ([], ⟨s.data ++ arriving, s.position, false⟩) :=
  readline_pending s arriving heof (findNewline_eq_none _ _ hno)

/-- C4 witness: concrete empty pending stream; a newline arriving during
the suspension is still answered with the empty result. -/
theorem readline_pending_suspends_once_witness :
    MemoryReader.readline ⟨[], 0, false⟩ [10] = ([], ⟨[10], 0, false⟩) :=
  readline_pending_suspends_once ⟨[], 0, false⟩ [10] rfl
    (fun k _ hk1 => absurd hk1 (Nat.not_lt_zero k))

/-- C5: when a terminator is present at or beyond the cursor, `readline`
returns exactly the bytes from the cursor up to and including the first
terminator and advances the cursor past it; when end-of-stream is set
and no terminator is present, it returns the full remaining unread tail
once, and a subsequent call returns empty. -/
theorem readline_terminator_exact (s : MemoryReader) (arriving arriving' : List Nat)
    (hinv : s.position ≤ s.data.length) :
    ((∃ k, s.position ≤ k ∧ k < s.data.length ∧ s.data[k]? = some 10) →
      ∃ j, s.position ≤ j ∧ j < s.data.length ∧ s.data[j]? = some 10 ∧
        (∀ k, s.position ≤ k → k < j → s.data[k]? ≠ some 10) ∧
        s.readline arriving =
          ((s.data.drop s.position).take (j + 1 - s.position),
           { s with position := j + 1 })) ∧
    ((∀ k, s.position ≤ k → k < s.data.length → s.data[k]? ≠ some 10) →
      s.eof = true →
      s.readline arriving =
        (s.data.drop s.position, { s with position := s.data.length }) ∧
      (MemoryReader.readline { s with position := s.data.length } arriving').1 = []) := by
  constructor
  · intro hex
    obtain ⟨j, hj⟩ := findNewline_exists _ _ hex
    obtain ⟨h1, h2, h3, h4⟩ := findNewline_some_spec _ _ _ hj
    exact ⟨j, h1, h2, h3, h4, readline_found s arriving j hj⟩
  · intro hno heof
    have hnl : findNewline s.data s.position = none := findNewline_eq_none _ _ hno
    constructor
    · by_cases hlt : s.position < s.data.length
      · exact readline_eof_tail s arriving heof hnl hlt
      · have hpe : s.position = s.data.length := by omega
        rw [readline_eof_drained s arriving heof hnl (Nat.not_lt.mp hlt), hpe]
        simp [List.drop_length]
    · have hnl2 : findNewline s.data s.data.length = none := by
        apply findNewline_eq_none
        intro k hk1 hk2
        exact absurd (Nat.lt_of_le_of_lt hk1 hk2) (Nat.lt_irrefl _)
      rw [readline_eof_drained { s with position := s.data.length } arriving'
        heof hnl2 (Nat.le_refl _)]

/-- C5 witness: a one-byte tail under EOF is returned once; the next
call returns empty. -/
theorem readline_terminator_exact_witness :
    MemoryReader.readline ⟨[97], 0, true⟩ [] = ([97], ⟨[97], 1, true⟩) ∧
    (MemoryReader.readline ⟨[97], 1, true⟩ []).1 = [] := by
  have h := (readline_terminator_exact ⟨[97], 0, true⟩ [] [] (by decide)).2
    (fun k hk0 hk1 => by
      have hk1a : k < 1 := hk1
      have hk : k = 0 := by omega
      subst hk
      decide) rfl
  exact ⟨h.1, h.2⟩

/-- C6 counterexample: after `set_eof`, a `write` still appends — the
buffer changes from `[]` to `[7]` — refuting "no subsequent write call
appends any bytes to the buffer". -/
theorem write_after_eof_changes_buffer :
    (MemoryReader.init.set_eof).eof = true ∧
    (MemoryReader.init.set_eof).data = [] ∧
    ((MemoryReader.init.set_eof).write [7]).data = [7] := ⟨rfl, rfl, rfl⟩

/-- C6 (amended): `write` appends unconditionally; the end-of-stream
flag is not consulted, so a write performed after `set_eof` extends the
buffer by exactly the written bytes (and leaves the flag set). -/
theorem write_appends_despite_eof (s : MemoryReader) (d : List Nat)
    (heof : s.eof = true) :
    (s.write d).data = s.data ++ d ∧ (s.write d).eof = true := ⟨rfl, heof⟩

/-- C6 witness. -/
theorem write_appends_despite_eof_witness :
    ((⟨[1], 0, true⟩ : MemoryReader).write [2]).data = [1] ++ [2] ∧
    ((⟨[1], 0, true⟩ : MemoryReader).write [2]).eof = true :=
  write_appends_despite_eof ⟨[1], 0, true⟩ [2] rfl

/-- C7: if the dispatch block raises any exception while handling a
decoded, parsed message, the handler catches it and writes the single
`-32603` envelope carrying the failure description; nothing escapes the
coroutine and the response is closed (the exchange completes). -/
theorem dispatch_exception_caught_internal_error (parse : List Nat → Except String Json)
    (env : DispatchEnv) (body text : List Nat) (message : Json) (ex : String) (c : Nat)
    (hne : body ≠ [])
    (hdec : utf8Decode body = some text)
    (hparse : parse text = Except.ok message)
    (hraise : dispatchTry env message = (Except.error ex, c)) :
    (mcp_handler parse env body).writes =
      [errorEnvelope (exceptId message) (-32603) ("Internal error: " ++ ex)] ∧
    (mcp_handler parse env body).escaped = none ∧
    (mcp_handler parse env body).responseClosed = true := by
  rw [mcp_handler_dispatches parse env body text message hne hdec hparse]
  unfold dispatch
  rw [hraise]
  exact ⟨rfl, rfl, rfl⟩

/-- C7 witness: a `prompts/list` message whose collaborator raises
`boom` yields exactly the `-32603` envelope, nothing escapes, and the
response is closed. -/
theorem dispatch_exception_caught_internal_error_witness :
    (mcp_handler (fun _ => Except.ok (Json.obj [("method", Json.str "prompts/list")]))
        ⟨Except.error "boom", fun _ _ => Except.ok ⟨[]⟩⟩ [120]).writes =
      [errorEnvelope Json.null (-32603) ("Internal error: " ++ "boom")] ∧
    (mcp_handler (fun _ => Except.ok (Json.obj [("method", Json.str "prompts/list")]))
        ⟨Except.error "boom", fun _ _ => Except.ok ⟨[]⟩⟩ [120]).escaped = none ∧
    (mcp_handler (fun _ => Except.ok (Json.obj [("method", Json.str "prompts/list")]))
        ⟨Except.error "boom", fun _ _ => Except.ok ⟨[]⟩⟩ [120]).responseClosed = true :=
  dispatch_exception_caught_internal_error
    (fun _ => Except.ok (Json.obj [("method", Json.str "prompts/list")]))
    ⟨Except.error "boom", fun _ _ => Except.ok ⟨[]⟩⟩ [120] [120]
    (Json.obj [("method", Json.str "prompts/list")]) "boom" 1
    (by decide) rfl rfl rfl

/-- C8: an empty request body yields exactly the `-32600`
"Empty request body" envelope, with zero collaborator calls, the
dispatch block never entered, nothing escaping, and the response
closed. -/
theorem empty_body_rejected (parse : List Nat → Except String Json)
    (env : DispatchEnv) :
    mcp_handler parse env [] =
      ⟨[errorEnvelope Json.null (-32600) "Empty request body"],
       0, false, none, true⟩ := rfl

/-- C9: after any sequence of `write` / `set_eof` / `read` / `readline`
/ `readexactly` operations from the fresh stream, the cursor never
exceeds the buffer length. -/
theorem cursor_le_buffer_length (ops : List Op) :
    (runOps ops).position ≤ (runOps ops).data.length :=
  foldl_inv ops MemoryReader.init (Nat.le_refl 0)

/-- C10: whenever `readline` returns empty because no terminator was
found and end-of-stream is unset, the cursor is restored exactly to its
entry value and no buffered byte is lost (the buffer is the old one plus
whatever arrived during the suspension). -/
theorem readline_failed_scan_restores_cursor (s : MemoryReader) (arriving : List Nat)
    (heof : s.eof = false)
    (hno : ∀ k, s.position ≤ k → k < s.data.length → s.data[k]? ≠ some 10) :
    (s.readline arriving).1 = [] ∧
    (s.readline arriving).2.position = s.position ∧
    (s.readline arriving).2.data = s.data ++ arriving := by
  rw [readline_pending s arriving heof (findNewline_eq_none _ _ hno)]
  exact ⟨rfl, rfl, rfl⟩

/-- C10 witness. -/
theorem readline_failed_scan_restores_cursor_witness :
    (MemoryReader.readline ⟨[97], 0, false⟩ [10]).1 = [] ∧
    (MemoryReader.readline ⟨[97], 0, false⟩ [10]).2.position = 0 ∧
    (MemoryReader.readline ⟨[97], 0, false⟩ [10]).2.data = [97, 10] :=
  readline_failed_scan_restores_cursor ⟨[97], 0, false⟩ [10] rfl
    (fun k hk0 hk1 => by
      have hk1a : k < 1 := hk1
      have hk : k = 0 := by omega
      subst hk
      decide)

end McpBridge
